import Mathlib

/-!
Verification of the pi-pulse stream-ingestion core.

Python strings are modelled as `List Char`; the stateful supervisor loop in
`app/streams/consumer.py` is modelled as a trace-producing function over a
script of connection-attempt outcomes; `json.loads` (a standard-library
collaborator of the source) is modelled by an executable JSON parser.
-/

namespace PiPulse

/-- JSON values as produced by Python's json module (the payload decoder's
collaborator). Numeric tokens are kept as their source lexemes; the NaN and
Infinity extensions of the Python module are not exercised by this
repository's streams and are omitted. -/
inductive Json where
  | null
  | bool (b : Bool)
  | num (lexeme : List Char)
  | str (chars : List Char)
  | arr (elems : List Json)
  | obj (members : List (List Char × Json))
deriving Repr

/-- Whitespace characters skipped by the JSON grammar. -/
def isJsonWs (c : Char) : Bool :=
  c = ' ' || c = '\t' || c = '\n' || c = '\r'

/-- Drop leading JSON whitespace. -/
def skipWs : List Char → List Char
  | [] => []
  | c :: rest => if isJsonWs c then skipWs rest else c :: rest

/-- Value of a hexadecimal digit. -/
def hexVal (c : Char) : Option Nat :=
  if '0' ≤ c ∧ c ≤ '9' then some (c.toNat - '0'.toNat)
  else if 'a' ≤ c ∧ c ≤ 'f' then some (c.toNat - 'a'.toNat + 10)
  else if 'A' ≤ c ∧ c ≤ 'F' then some (c.toNat - 'A'.toNat + 10)
  else none

/-- Single-character JSON string escapes. -/
def escChar : Char → Option Char
  | '"' => some '"'
  | '\\' => some '\\'
  | '/' => some '/'
  | 'b' => some (Char.ofNat 8)
  | 'f' => some (Char.ofNat 12)
  | 'n' => some '\n'
  | 'r' => some '\r'
  | 't' => some '\t'
  | _ => none

/-- Parse the body of a JSON string after the opening quote; returns the
decoded characters and the remaining input after the closing quote. -/
def parseStringBody : List Char → Option (List Char × List Char)
  | [] => none
  | '"' :: rest => some ([], rest)
  | '\\' :: 'u' :: a :: b :: c :: d :: rest =>
    match hexVal a, hexVal b, hexVal c, hexVal d with
    | some ha, some hb, some hc, some hd =>
      match parseStringBody rest with
      | some (s, r) =>
        some (Char.ofNat (((ha * 16 + hb) * 16 + hc) * 16 + hd) :: s, r)
      | none => none
    | _, _, _, _ => none
  | '\\' :: e :: rest =>
    match escChar e with
    | some ec =>
      match parseStringBody rest with
      | some (s, r) => some (ec :: s, r)
      | none => none
    | none => none
  | c :: rest =>
    if c.toNat < 32 then none
    else
      match parseStringBody rest with
      | some (s, r) => some (c :: s, r)
      | none => none

/-- Decimal digit test. -/
def isDigit (c : Char) : Bool := '0' ≤ c && c ≤ '9'

/-- Longest leading run of decimal digits. -/
def takeDigits : List Char → List Char × List Char
  | [] => ([], [])
  | c :: rest =>
    if isDigit c then
      let (ds, r) := takeDigits rest
      (c :: ds, r)
    else ([], c :: rest)

/-- Integer part of a JSON number: a single zero, or a nonzero digit followed
by digits (leading zeros are rejected, as in the JSON grammar). -/
def parseIntPart : List Char → Option (List Char × List Char)
  | [] => none
  | c :: rest =>
    if c = '0' then some (['0'], rest)
    else if isDigit c then
      let (ds, r) := takeDigits rest
      some (c :: ds, r)
    else none

/-- Optional fraction part; consumes nothing when absent or malformed. -/
def parseFracPart : List Char → List Char × List Char
  | '.' :: rest =>
    match rest with
    | c :: _ =>
      if isDigit c then
        let (ds, r) := takeDigits rest
        ('.' :: ds, r)
      else ([], '.' :: rest)
    | [] => ([], ['.'])
  | s => ([], s)

/-- Optional exponent part; consumes nothing when absent or malformed. -/
def parseExpPart : List Char → List Char × List Char
  | [] => ([], [])
  | e :: rest =>
    if e = 'e' ∨ e = 'E' then
      match rest with
      | s :: rest2 =>
        if s = '+' ∨ s = '-' then
          match rest2 with
          | c :: _ =>
            if isDigit c then
              let (ds, r) := takeDigits rest2
              (e :: s :: ds, r)
            else ([], e :: rest)
          | [] => ([], e :: rest)
        else if isDigit s then
          let (ds, r) := takeDigits rest
          (e :: ds, r)
        else ([], e :: rest)
      | [] => ([], [e])
    else ([], e :: rest)

/-- Lex a JSON number token, returning its lexeme and the remaining input. -/
def parseNumber (s : List Char) : Option (List Char × List Char) :=
  match s with
  | '-' :: rest =>
    match parseIntPart rest with
    | some (ip, r) =>
      let (fp, r2) := parseFracPart r
      let (ep, r3) := parseExpPart r2
      some ('-' :: (ip ++ fp ++ ep), r3)
    | none => none
  | _ =>
    match parseIntPart s with
    | some (ip, r) =>
      let (fp, r2) := parseFracPart r
      let (ep, r3) := parseExpPart r2
      some (ip ++ fp ++ ep, r3)
    | none => none

mutual

/-- Parse one JSON value (fuel-indexed; the fuel bounds nesting depth and is
always sufficient when set to the input length plus one). -/
def parseValue : Nat → List Char → Option (Json × List Char)
  | 0, _ => none
  | fuel + 1, s =>
    match skipWs s with
    | 'n' :: 'u' :: 'l' :: 'l' :: r => some (.null, r)
    | 't' :: 'r' :: 'u' :: 'e' :: r => some (.bool true, r)
    | 'f' :: 'a' :: 'l' :: 's' :: 'e' :: r => some (.bool false, r)
    | '"' :: r =>
      match parseStringBody r with
      | some (cs, r2) => some (.str cs, r2)
      | none => none
    | '[' :: r =>
      match skipWs r with
      | ']' :: r2 => some (.arr [], r2)
      | _ =>
        match parseElements fuel r with
        | some (es, r2) => some (.arr es, r2)
        | none => none
    | '\x7b' :: r =>
      match skipWs r with
      | '\x7d' :: r2 => some (.obj [], r2)
      | _ =>
        match parseMembers fuel r with
        | some (ms, r2) => some (.obj ms, r2)
        | none => none
    | rest =>
      match parseNumber rest with
      | some (lex, r) => some (.num lex, r)
      | none => none

/-- Parse a nonempty comma-separated list of array elements up to the
closing bracket. -/
def parseElements : Nat → List Char → Option (List Json × List Char)
  | 0, _ => none
  | fuel + 1, s =>
    match parseValue fuel s with
    | some (v, r) =>
      match skipWs r with
      | ',' :: r2 =>
        match parseElements fuel r2 with
        | some (vs, r3) => some (v :: vs, r3)
        | none => none
      | ']' :: r2 => some ([v], r2)
      | _ => none
    | none => none

/-- Parse a nonempty comma-separated list of object members up to the
closing brace. -/
def parseMembers : Nat → List Char → Option (List (List Char × Json) × List Char)
  | 0, _ => none
  | fuel + 1, s =>
    match skipWs s with
    | '"' :: r =>
      match parseStringBody r with
      | some (key, r2) =>
        match skipWs r2 with
        | ':' :: r3 =>
          match parseValue fuel r3 with
          | some (v, r4) =>
            match skipWs r4 with
            | ',' :: r5 =>
              match parseMembers fuel r5 with
              | some (ms, r6) => some ((key, v) :: ms, r6)
              | none => none
            | '\x7d' :: r5 => some ([(key, v)], r5)
            | _ => none
          | none => none
        | _ => none
      | none => none
    | _ => none

end

/-- Model of Python's `json.loads`: parse one JSON value and require that
only whitespace follows it; `none` models a raised `json.JSONDecodeError`. -/
def json_loads (payload : List Char) : Option Json :=
  match parseValue (payload.length + 1) payload with
  | some (v, rest) => if skipWs rest = [] then some v else none
  | none => none

/-- Python's `json.JSONDecodeError`, which records the offending document. -/
structure JSONDecodeError where
  doc : List Char
deriving Repr

/-- Embedding of `extract_sse_payload` from `app/streams/parser.py`:
return the text after the `"data: "` marker, or `none` when the line does
not start with it. -/
def extract_sse_payload (line : List Char) : Option (List Char) :=
  if ("data: ".toList).isPrefixOf line then
    some (line.drop ("data: ".length))
  else none

/-- Embedding of `parse_payload` from `app/streams/parser.py`: exactly
`json.loads` on the payload (the Python return annotation `-> dict` is not
enforced at runtime); an error carries the offending payload. -/
def parse_payload (payload : List Char) : Except JSONDecodeError Json :=
  match json_loads payload with
  | some v => .ok v
  | none => .error ⟨payload⟩

/-- Observable actions of one supervisor task in `app/streams/consumer.py`:
the warning logged for a malformed packet, an awaited `on_data` call (made
under `reactive.lock` and followed by `reactive.flush`), the warning logged
for a stream error, and an `asyncio.sleep`. -/
inductive Event where
  | logDecodeWarn (label : String) (payload : List Char)
  | deliver (record : Json)
  | logStreamWarn (label excName excMsg : String) (backoff : Nat)
  | sleep (seconds : Nat)
deriving Repr

/-- How one connection attempt's line loop ends, after the listed lines
have been received. -/
inductive SessionEnd where
  | cleanEOF
  | err (excName excMsg : String)
  | cancelled
deriving Repr

/-- Environment script for one iteration of the supervisor's `while True`
loop: an exception before the status check passes (connection failure or a
non-2xx `raise_for_status`), an `asyncio.CancelledError` while connecting, a
`CancelledError` raised inside the `asyncio.sleep` back-off wait of the
failure handler, or a connected session delivering some lines and then
ending. -/
inductive Attempt where
  | connectErr (excName excMsg : String)
  | connectCancelled
  | connectErrCancelSleep (excName excMsg : String)
  | stream (lines : List (List Char)) (ending : SessionEnd)
deriving Repr

/-- Body of the `async for line` loop in `stream_consumer`: a line starting
with `"data: "` has the rest parsed as JSON — a decode failure logs a
warning and skips the line, a success awaits `on_data` — and any other line
is ignored. -/
def processLine (label : String) (line : List Char) : List Event :=
  if ("data: ".toList).isPrefixOf line then
    let json_str := line.drop ("data: ".length)
    match json_loads json_str with
    | some data => [.deliver data]
    | none => [.logDecodeWarn label json_str]
  else []

/-- The line loop over a whole attempt's lines, in arrival order; each
line's `on_data` call completes before the next line is read. -/
def processLines (label : String) : List (List Char) → List Event
  | [] => []
  | l :: rest => processLine label l ++ processLines label rest

/-- One iteration of `stream_consumer`'s `while True` loop, given the
back-off value at loop entry: returns the events of this iteration and the
back-off for the next one, or `none` when the function terminates via
`asyncio.CancelledError`. A connected session has passed
`raise_for_status`, so its iteration runs with the back-off already reset
to 1; an exception before that point logs a warning, sleeps the current
back-off, then doubles it capped at 30. -/
def superviseStep (label : String) (backoff : Nat) : Attempt → List Event × Option Nat
  | .connectErr excName excMsg =>
    ([.logStreamWarn label excName excMsg backoff, .sleep backoff],
      some (min (backoff * 2) 30))
  | .connectCancelled => ([], none)
  | .connectErrCancelSleep excName excMsg =>
    ([.logStreamWarn label excName excMsg backoff], none)
  | .stream lines ending =>
    let evs := processLines label lines
    match ending with
    | .cleanEOF => (evs, some 1)
    | .err excName excMsg =>
      (evs ++ [.logStreamWarn label excName excMsg 1, .sleep 1],
        some (min (1 * 2) 30))
    | .cancelled => (evs, none)

/-- Embedding of `stream_consumer` from `app/streams/consumer.py`, run
against a finite script of attempt outcomes: the concatenated event trace,
and whether the coroutine has returned (`true` exactly when cancellation
was reached; `false` means the loop is still running when the script ends). -/
def stream_consumer (label : String) : Nat → List Attempt → List Event × Bool
  | _, [] => ([], false)
  | backoff, a :: rest =>
    match superviseStep label backoff a with
    | (evs, none) => (evs, true)
    | (evs, some backoff2) =>
      let r := stream_consumer label backoff2 rest
      (evs ++ r.1, r.2)

/-- Whether an attempt outcome raises `asyncio.CancelledError`. -/
def attemptCancels : Attempt → Bool
  | .connectCancelled => true
  | .connectErrCancelSleep _ _ => true
  | .stream _ .cancelled => true
  | _ => false

/-- Records passed to `on_data`, in order, within an event trace. -/
def delivers (evs : List Event) : List Json :=
  evs.filterMap fun e =>
    match e with
    | .deliver v => some v
    | _ => none

/-- Events a line loop can emit: `on_data` calls and malformed-packet
warnings only (never a stream-error warning or a sleep). -/
def isLineEvent : Event → Bool
  | .deliver _ => true
  | .logDecodeWarn _ _ => true
  | _ => false

/-- The warning/sleep trace of a run of consecutive connection failures,
one warning and one sleep per failure, given the successive delays. -/
def failTrace (label excName excMsg : String) : List Nat → List Event
  | [] => []
  | d :: ds =>
    .logStreamWarn label excName excMsg d :: .sleep d ::
      failTrace label excName excMsg ds

/-- Per-device reactive state in `app/server.py`: the `reactive.Value`
latest snapshot and the `deque(maxlen=60)` history of timestamped records. -/
structure DeviceState where
  latest : Json
  history : List (Nat × Json)
deriving Repr

/-- Appending to a Python `deque` with a `maxlen`: the new element goes on
the right and, when the buffer is full, the leftmost element is discarded. -/
def dequeAppend (maxlen : Nat) (xs : List α) (x : α) : List α :=
  let ys := xs ++ [x]
  ys.drop (ys.length - maxlen)

/-- Embedding of the `on_pulse` callback in `app/server.py` (and of the
identically shaped `on_sen66` / `on_sen66_nc`): append the timestamped
record to the device's history deque and set the latest-value snapshot. -/
def on_pulse (now : Nat) (data : Json) (st : DeviceState) : DeviceState :=
  { latest := data, history := dequeAppend 60 st.history (now, data) }

/-! Helper lemmas shared by the claim theorems. -/

theorem isPrefixOf_data_append (s : List Char) :
    ("data: ".toList).isPrefixOf ("data: ".toList ++ s) = true := by
  simp [List.isPrefixOf]

theorem drop_data_append (s : List Char) :
    ("data: ".toList ++ s).drop ("data: ".length) = s :=
  List.drop_left' rfl

theorem processLine_data_eq (label : String) (payload : List Char) :
    processLine label ("data: ".toList ++ payload) =
      match json_loads payload with
      | some data => [Event.deliver data]
      | none => [Event.logDecodeWarn label payload] := by
  simp only [processLine, isPrefixOf_data_append, drop_data_append,
    eq_self_iff_true, if_true]

/-- C2: `extract_payload(L)` is non-null iff `L` begins with the exact
6-character "data: " (space included), in which case the result is exactly
the substring after the marker, unmodified; "data:X" (no space) and
"event: x" yield null. -/
theorem C2_line_framer :
    (∀ L : List Char, (extract_sse_payload L).isSome = ("data: ".toList).isPrefixOf L)
    ∧ (∀ s : List Char, extract_sse_payload ("data: ".toList ++ s) = some s)
    ∧ extract_sse_payload "data: X".toList = some "X".toList
    ∧ extract_sse_payload "data:X".toList = none
    ∧ extract_sse_payload "event: x".toList = none := by
  refine ⟨?_, ?_, rfl, rfl, rfl⟩
  · intro L
    unfold extract_sse_payload
    split
    · next h => rw [h]; rfl
    · next h => rw [Bool.not_eq_true] at h; rw [h]; rfl
  · intro s
    unfold extract_sse_payload
    rw [if_pos (isPrefixOf_data_append s), drop_data_append]

/-- C3: the payload decoder is exactly JSON parsing — it returns the decoded
value precisely when the payload is syntactically valid JSON and raises a
decode error (carrying the payload) precisely when it is not; in particular
decoding the object text succeeds and decoding the truncated text fails. -/
theorem C3_payload_decoder :
    (∀ (payload : List Char) (v : Json),
      parse_payload payload = .ok v ↔ json_loads payload = some v)
    ∧ (∀ payload : List Char,
      (∃ e, parse_payload payload = .error e) ↔ json_loads payload = none)
    ∧ parse_payload "\x7b\"cpu\": 1\x7d".toList =
        .ok (.obj [("cpu".toList, .num ['1'])])
    ∧ parse_payload "\x7b\"cpu\": ".toList = .error ⟨"\x7b\"cpu\": ".toList⟩ := by
  refine ⟨?_, ?_, rfl, rfl⟩
  · intro payload v
    unfold parse_payload
    cases h : json_loads payload <;> simp
  · intro payload
    unfold parse_payload
    cases h : json_loads payload <;> simp

/-- C9: a payload that is valid JSON but not an object (such as "3",
"[1, 2]", "null" or a bare string) is decoded without error and forwarded
to `on_data` rather than skipped — decoding is not restricted to JSON
object syntax. -/
theorem C9_nonobject_payloads (label : String) (payload : List Char) (v : Json)
    (h : json_loads payload = some v) :
    parse_payload payload = .ok v
    ∧ processLine label ("data: ".toList ++ payload) = [.deliver v]
    ∧ json_loads "3".toList = some (.num ['3'])
    ∧ json_loads "[1, 2]".toList = some (.arr [.num ['1'], .num ['2']])
    ∧ json_loads "null".toList = some .null
    ∧ json_loads "\"x\"".toList = some (.str ['x']) := by
  refine ⟨?_, ?_, rfl, rfl, rfl, rfl⟩
  · unfold parse_payload
    rw [h]
  · rw [processLine_data_eq, h]

/-- Witness for C9 at the concrete payload "3". -/
theorem C9_nonobject_payloads_witness :
    parse_payload "3".toList = .ok (.num ['3'])
    ∧ processLine "pulse-pi" ("data: ".toList ++ "3".toList) =
        [.deliver (.num ['3'])] :=
  ⟨(C9_nonobject_payloads "pulse-pi" "3".toList (.num ['3']) rfl).1,
   (C9_nonobject_payloads "pulse-pi" "3".toList (.num ['3']) rfl).2.1⟩

/-- C10: the line consisting of exactly "data: " extracts the empty payload,
the empty payload fails JSON decoding, so the consumer logs it as a
malformed packet and skips it — `on_data` never runs for it and the
following lines are still processed. -/
theorem C10_empty_payload (label : String) (rest : List (List Char)) :
    extract_sse_payload "data: ".toList = some []
    ∧ json_loads ([] : List Char) = none
    ∧ processLine label "data: ".toList = [.logDecodeWarn label []]
    ∧ processLines label ("data: ".toList :: rest) =
        .logDecodeWarn label [] :: processLines label rest :=
  ⟨rfl, rfl, rfl, rfl⟩

theorem delivers_append (a b : List Event) :
    delivers (a ++ b) = delivers a ++ delivers b :=
  List.filterMap_append a b _

theorem delivers_processLine (label : String) (l : List Char) :
    delivers (processLine label l) =
      (if ("data: ".toList).isPrefixOf l then
        json_loads (l.drop ("data: ".length)) else none).toList := by
  simp only [delivers, processLine]
  by_cases hp : ("data: ".toList).isPrefixOf l = true
  · rw [if_pos hp, if_pos hp]
    cases json_loads (List.drop ("data: ".length) l) <;> rfl
  · rw [if_neg hp, if_neg hp]
    rfl

/-- C4: a data line whose payload fails to decode produces exactly one
warning carrying the endpoint label and the raw payload, never reaches
`on_data`, and processing continues with the following lines; the session
whose only line is the truncated packet delivers zero records and ends only
through cooperative cancellation. -/
theorem C4_decode_failure_skips (label : String) (payload : List Char)
    (h : json_loads payload = none) :
    processLine label ("data: ".toList ++ payload) = [.logDecodeWarn label payload]
    ∧ (∀ (l : List Char) (rest : List (List Char)),
        processLines label (l :: rest) = processLine label l ++ processLines label rest)
    ∧ stream_consumer label 1 [.stream ["data: \x7b\"cpu\": ".toList] .cancelled] =
        ([.logDecodeWarn label "\x7b\"cpu\": ".toList], true)
    ∧ delivers [Event.logDecodeWarn label "\x7b\"cpu\": ".toList] = [] := by
  refine ⟨?_, fun l rest => rfl, rfl, rfl⟩
  rw [processLine_data_eq, h]

/-- Witness for C4 at the truncated payload of the spec's example. -/
theorem C4_decode_failure_skips_witness :
    json_loads "\x7b\"cpu\": ".toList = none
    ∧ processLine "pulse-pi" ("data: ".toList ++ "\x7b\"cpu\": ".toList) =
        [.logDecodeWarn "pulse-pi" "\x7b\"cpu\": ".toList] :=
  ⟨rfl, (C4_decode_failure_skips "pulse-pi" "\x7b\"cpu\": ".toList rfl).1⟩

/-- C5: within one attempt the records handed to `on_data`, in order, are
exactly the successful decodings of the lines carrying the "data: " marker
(each `on_data` call completing before the next line is read, the loop
being sequential); the spec's three-line session delivers exactly the one
record decoded from the first data line. -/
theorem C5_in_order_delivery :
    (∀ (label : String) (lines : List (List Char)),
      delivers (processLines label lines) =
        lines.filterMap fun l =>
          if ("data: ".toList).isPrefixOf l then
            json_loads (l.drop ("data: ".length))
          else none)
    ∧ delivers (stream_consumer "pulse-pi" 1
        [.stream ["event: ignored".toList, "data: \x7b\"cpu\": 1\x7d".toList,
          "data:\x7b\"cpu\": 2\x7d".toList] .cancelled]).1 =
        [.obj [("cpu".toList, .num ['1'])]] := by
  refine ⟨?_, rfl⟩
  intro label lines
  induction lines with
  | nil => rfl
  | cons l rest ih =>
    show delivers (processLine label l ++ processLines label rest) = _
    rw [delivers_append, delivers_processLine, ih, List.filterMap_cons]
    cases hif : (if ("data: ".toList).isPrefixOf l then
        json_loads (l.drop ("data: ".length)) else none) <;> rfl

/-- C6: cancellation at any suspension point — opening the connection,
awaiting the next line, or the back-off sleep — terminates the supervisor:
nothing after the cancellation point runs (no further log, no sleep, no
retry of the remaining script, no further `on_data`), and a line loop by
itself emits only `on_data` calls and decode warnings. -/
theorem C6_cancellation_is_terminal (label excName excMsg : String) (b : Nat)
    (lines : List (List Char)) (rest : List Attempt) :
    stream_consumer label b (.connectCancelled :: rest) = ([], true)
    ∧ stream_consumer label b (.stream lines .cancelled :: rest) =
        (processLines label lines, true)
    ∧ stream_consumer label b (.connectErrCancelSleep excName excMsg :: rest) =
        ([.logStreamWarn label excName excMsg b], true)
    ∧ (processLines label lines).all isLineEvent = true := by
  refine ⟨rfl, rfl, rfl, ?_⟩
  induction lines with
  | nil => rfl
  | cons l rest2 ih =>
    have h1 : (processLine label l).all isLineEvent = true := by
      simp only [processLine]
      split
      · split <;> rfl
      · rfl
    show (processLine label l ++ processLines label rest2).all isLineEvent = true
    rw [List.all_append, h1, ih]
    rfl

/-- C7 counterexample: a session attempt that reaches a clean end of stream
is followed by an immediate reconnect — the whole trace holds no warning
and no sleep, whether the next attempt is observed (first run) or the
script stops at the clean end (second run). -/
theorem C7_clean_eof_counterexample :
    stream_consumer "pulse-pi" 1 [.stream [] .cleanEOF, .connectCancelled] = ([], true)
    ∧ stream_consumer "pulse-pi" 1 [.stream [] .cleanEOF] = ([], false) :=
  ⟨rfl, rfl⟩

/-- C7 amended: on a clean end of stream the supervisor logs nothing and
does not sleep; it reconnects immediately, carrying the back-off value 1
that was set when the connection's status check passed. -/
theorem C7_clean_eof_amended (label : String) (b : Nat)
    (lines : List (List Char)) (rest : List Attempt) :
    stream_consumer label b (.stream lines .cleanEOF :: rest) =
      (processLines label lines ++ (stream_consumer label 1 rest).1,
        (stream_consumer label 1 rest).2) := rfl

/-- C8: the per-device history deque has capacity exactly 60, oldest
evicted first — a 61st append drops the oldest entry and the length never
exceeds 60 — and each handler invocation appends the timestamped record to
the history and replaces the latest-record snapshot. -/
theorem C8_history_ring_buffer (now : Nat) (data : Json) (st : DeviceState) :
    (st.history.length ≤ 60 → (on_pulse now data st).history.length ≤ 60)
    ∧ (st.history.length = 60 →
        (on_pulse now data st).history = st.history.tail ++ [(now, data)]
        ∧ (on_pulse now data st).history.length = 60)
    ∧ (st.history.length < 60 →
        (on_pulse now data st).history = st.history ++ [(now, data)])
    ∧ (on_pulse now data st).latest = data := by
  refine ⟨?_, ?_, ?_, rfl⟩
  · intro h
    simp only [on_pulse, dequeAppend, List.length_drop, List.length_append,
      List.length_cons, List.length_nil]
    omega
  · intro h
    constructor
    · simp only [on_pulse, dequeAppend, List.length_append, List.length_cons,
        List.length_nil, h]
      rw [show 60 + (0 + 1) - 60 = 1 from rfl,
        List.drop_append_of_le_length (by omega), List.drop_one]
    · simp only [on_pulse, dequeAppend, List.length_drop, List.length_append,
        List.length_cons, List.length_nil, h]
  · intro h
    simp only [on_pulse, dequeAppend, List.length_append, List.length_cons,
      List.length_nil]
    rw [Nat.sub_eq_zero_of_le (by omega), List.drop_zero]

/-- Witness for C8 on a device state whose history is already full. -/
theorem C8_history_ring_buffer_witness :
    (List.replicate 60 ((0 : Nat), Json.null)).length = 60
    ∧ (on_pulse 7 Json.null ⟨Json.null, List.replicate 60 ((0 : Nat), Json.null)⟩).history =
        (List.replicate 60 ((0 : Nat), Json.null)).tail ++ [(7, Json.null)]
    ∧ (on_pulse 7 Json.null ⟨Json.null, List.replicate 60 ((0 : Nat), Json.null)⟩).history.length = 60 :=
  ⟨by simp,
   (C8_history_ring_buffer 7 Json.null ⟨Json.null, List.replicate 60 ((0 : Nat), Json.null)⟩).2.1
      (by simp) |>.1,
   (C8_history_ring_buffer 7 Json.null ⟨Json.null, List.replicate 60 ((0 : Nat), Json.null)⟩).2.1
      (by simp) |>.2⟩

theorem min_thirty_mul (a c : Nat) (hc : 1 ≤ c) :
    min (min a 30 * c) 30 = min (a * c) 30 := by
  rcases Nat.le_total a 30 with h | h
  · rw [Nat.min_eq_left h]
  · rw [Nat.min_eq_right h,
      Nat.min_eq_right (Nat.le_mul_of_pos_right 30 hc),
      Nat.min_eq_right (le_trans h (Nat.le_mul_of_pos_right a hc))]

theorem consecutive_failures (label excName excMsg : String) :
    ∀ (N b : Nat), b ≤ 30 →
      stream_consumer label b (List.replicate N (.connectErr excName excMsg)) =
        (failTrace label excName excMsg
          ((List.range N).map fun i => min (b * 2 ^ i) 30), false) := by
  intro N
  induction N with
  | zero => intro b _; rfl
  | succ n ih =>
    intro b hb
    rw [List.replicate_succ]
    have step : stream_consumer label b
        (Attempt.connectErr excName excMsg :: List.replicate n (.connectErr excName excMsg)) =
        (Event.logStreamWarn label excName excMsg b :: Event.sleep b ::
          (stream_consumer label (min (b * 2) 30)
            (List.replicate n (.connectErr excName excMsg))).1,
         (stream_consumer label (min (b * 2) 30)
            (List.replicate n (.connectErr excName excMsg))).2) := rfl
    rw [step, ih (min (b * 2) 30) (Nat.min_le_right _ _)]
    rw [List.range_succ_eq_map, List.map_cons, List.map_map]
    have hfun : ((fun i => min (b * 2 ^ i) 30) ∘ Nat.succ) =
        fun i => min (min (b * 2) 30 * 2 ^ i) 30 := by
      funext i
      show min (b * 2 ^ (i + 1)) 30 = min (min (b * 2) 30 * 2 ^ i) 30
      rw [min_thirty_mul (b * 2) (2 ^ i) (Nat.one_le_two_pow)]
      ring_nf
    rw [hfun]
    show (Event.logStreamWarn label excName excMsg b :: Event.sleep b ::
        failTrace label excName excMsg _, false) =
      (failTrace label excName excMsg (min (b * 2 ^ 0) 30 :: _), false)
    rw [pow_zero, Nat.mul_one, Nat.min_eq_left hb]
    rfl

/-- C1: every exception other than cancellation — while connecting, from a
non-2xx status, mid-stream, or from the handler — is absorbed into a logged
warning followed by a back-off sleep; N consecutive connection failures
with no intervening success sleep 1, 2, 4, 8, ... seconds capped at 30; a
connection whose status check passed resets the back-off so the next
failure sleeps 1 second; and the loop terminates exactly when cancellation
is reached. -/
theorem C1_supervisor_retry_and_backoff :
    (∀ (label excName excMsg : String) (b : Nat),
      superviseStep label b (.connectErr excName excMsg) =
        ([.logStreamWarn label excName excMsg b, .sleep b], some (min (b * 2) 30)))
    ∧ (∀ (label excName excMsg : String) (N : Nat),
      stream_consumer label 1 (List.replicate N (.connectErr excName excMsg)) =
        (failTrace label excName excMsg
          ((List.range N).map fun i => min (2 ^ i) 30), false))
    ∧ (∀ (label : String) (b : Nat) (lines : List (List Char)),
      superviseStep label b (.stream lines .cleanEOF) =
        (processLines label lines, some 1))
    ∧ (∀ (label excName excMsg : String) (b : Nat) (lines : List (List Char)),
      superviseStep label b (.stream lines (.err excName excMsg)) =
        (processLines label lines ++ [.logStreamWarn label excName excMsg 1, .sleep 1],
          some 2))
    ∧ (∀ (label : String) (b : Nat) (script : List Attempt),
      (stream_consumer label b script).2 = script.any attemptCancels) := by
  refine ⟨fun _ _ _ _ => rfl, ?_, fun _ _ _ => rfl, fun _ _ _ _ _ => rfl, ?_⟩
  · intro label excName excMsg N
    have h := consecutive_failures label excName excMsg N 1 (by omega)
    simpa only [Nat.one_mul] using h
  · intro label b script
    induction script generalizing b with
    | nil => rfl
    | cons a rest ih =>
      cases a with
      | connectErr n m =>
        show (stream_consumer label (min (b * 2) 30) rest).2 = _
        rw [ih]
        rfl
      | connectCancelled => rfl
      | connectErrCancelSleep n m => rfl
      | stream lines ending =>
        cases ending with
        | cleanEOF =>
          show (stream_consumer label 1 rest).2 = _
          rw [ih]
          rfl
        | err n m =>
          show (stream_consumer label (min (1 * 2) 30) rest).2 = _
          rw [ih]
          rfl
        | cancelled => rfl

end PiPulse
